import Mathlib

/-!
Verification of the jito-go block-engine client core.

This file gives a shallow embedding, in Lean 4, of the parts of the
repository that the specification's claims are about:

* signature extraction (`pkg/tx_extract.go`),
* signature-status checking and validation (`pkg` status helpers),
* the bundle rejection-error constructors (`block-engine/types.go`),
* the bundle-result handler and the bounded confirmation loop of
  `SendBundleWithConfirmation` (`block-engine/bundle.go`),
* the endpoint parsing and dialing logic and the connection-health loop of
  `CreateGRPCConnection` (`pkg`),
* the authentication refresh loop and the credential-update critical section
  (`pkg/block-engine/authenticator.go`),
* the error-channel capacities chosen by the component constructors.

Go strings are modelled as Lean `String`; `fmt.Sprintf` concatenation becomes
string append; Go's `%d` on an unsigned integer becomes `toString` on `Nat`.
Fallible Go operations (including runtime panics from out-of-bounds indexing
or nil dereference) are modelled with `Option` / `Except` or with explicit
panic outcomes.  External collaborators (the gRPC transport, `url.Parse`, the
remote services, the wall clock) are modelled as explicit oracle inputs, so
every definition is executable on concrete inputs.
-/

/-- A Solana signature, kept opaque: only its identity matters here. -/
abbrev Signature := String

/-- The part of `solana.Transaction` the client touches: its signature list. -/
structure Transaction where
  signatures : List Signature
deriving DecidableEq, Repr

/-- Embedding of `pkg.ExtractSigFromTx`: `return tx.Signatures[0]`.
In Go this indexing panics when the signature list is empty; the embedding
returns `none` exactly in that out-of-bounds case. -/
def ExtractSigFromTx (tx : Transaction) : Option Signature :=
  tx.signatures[0]?

/-- Embedding of `pkg.BatchExtractSigFromTx`: appends `tx.Signatures[0]` for
each transaction, in order.  `none` models the Go panic that occurs as soon
as one transaction has no signature. -/
def BatchExtractSigFromTx : List Transaction → Option (List Signature)
  | [] => some []
  | tx :: rest => do
    let s ← ExtractSigFromTx tx
    let others ← BatchExtractSigFromTx rest
    pure (s :: others)

/-- The part of `rpc.SignatureStatusesResult` entries the client reads. -/
structure SignatureStatus where
  confirmationStatus : String
deriving DecidableEq, Repr

/-- Go constant `rpc.ConfirmationStatusProcessed`. -/
def ConfirmationStatusProcessed : String := "processed"

/-- Go constant `rpc.ConfirmationStatusConfirmed`. -/
def ConfirmationStatusConfirmed : String := "confirmed"

/-- Embedding of `pkg.CheckSignatureStatuses`: true iff every entry of
`statuses.Value` is non-nil. -/
def CheckSignatureStatuses (statuses : List (Option SignatureStatus)) : Bool :=
  statuses.all Option.isSome

/-- Outcome of `pkg.ValidateSignatureStatuses`.  The Go function returns
`nil` on success and an error when some status has the wrong confirmation
level; dereferencing a nil entry would be a runtime panic, kept as a
distinguished outcome. -/
inductive ValidateOutcome where
  | ok
  | errNotInTime
  | panicNilStatus
deriving DecidableEq, Repr

/-- Embedding of `pkg.ValidateSignatureStatuses`: walks `statuses.Value` and
fails on the first entry whose confirmation status is neither `processed`
nor `confirmed`. -/
def ValidateSignatureStatuses : List (Option SignatureStatus) → ValidateOutcome
  | [] => .ok
  | none :: _ => .panicNilStatus
  | some st :: rest =>
    if st.confirmationStatus ≠ ConfirmationStatusProcessed ∧
        st.confirmationStatus ≠ ConfirmationStatusConfirmed then
      .errNotInTime
    else
      ValidateSignatureStatuses rest

/-- Embedding of `block_engine.BundleRejectionError`: a single error type
carrying the formatted message. -/
structure BundleRejectionError where
  message : String
deriving DecidableEq, Repr

/-- Embedding of `NewStateAuctionBidRejectedError`. -/
def NewStateAuctionBidRejectedError (auction : String) (tip : Nat) : BundleRejectionError :=
  ⟨"bundle lost state auction, auction: " ++ auction ++ ", tip " ++ toString tip ++ " lamports"⟩

/-- Embedding of `NewWinningBatchBidRejectedError`. -/
def NewWinningBatchBidRejectedError (auction : String) (tip : Nat) : BundleRejectionError :=
  ⟨"bundle won state auction but failed global auction, auction " ++ auction ++
    ", tip " ++ toString tip ++ " lamports"⟩

/-- Embedding of `NewSimulationFailureError`. -/
def NewSimulationFailureError (tx : String) (message : String) : BundleRejectionError :=
  ⟨"bundle simulation failure on tx " ++ tx ++ ", message: " ++ message⟩

/-- Embedding of `NewInternalError`. -/
def NewInternalError (message : String) : BundleRejectionError :=
  ⟨"internal error " ++ message⟩

/-- Embedding of `NewDroppedBundle`. -/
def NewDroppedBundle (message : String) : BundleRejectionError :=
  ⟨"bundle dropped " ++ message⟩

/-- The five rejection reasons of the external `bundle_pb.Rejected` oneof,
with exactly the fields `handleBundleResult` reads from each. -/
inductive RejectedReason where
  | simulationFailure (txSignature : String) (msg : String)
  | stateAuctionBidRejected (auctionId : String) (simulatedBidLamports : Nat)
  | winningBatchBidRejected (auctionId : String) (simulatedBidLamports : Nat)
  | internalError (msg : String)
  | droppedBundle (msg : String)
deriving DecidableEq, Repr

/-- The external `bundle_pb.BundleResult.Result` oneof as the client sees it:
`Accepted`, `Rejected` (whose own `Reason` oneof may be unset, hence
`Option`), or any other variant, which the type switch in
`handleBundleResult` does not inspect. -/
inductive BundleResultValue where
  | accepted
  | rejected (reason : Option RejectedReason)
  | otherResult
deriving DecidableEq, Repr

/-- Embedding of `SearcherClient.handleBundleResult`: `Accepted` is a no-op,
each of the five rejection reasons is mapped to its classified error, and
every case the type switches do not name falls through to `nil`. -/
def handleBundleResult : BundleResultValue → Option BundleRejectionError
  | .accepted => none
  | .rejected (some (.simulationFailure tx msg)) => some (NewSimulationFailureError tx msg)
  | .rejected (some (.stateAuctionBidRejected a t)) => some (NewStateAuctionBidRejectedError a t)
  | .rejected (some (.winningBatchBidRejected a t)) => some (NewWinningBatchBidRejectedError a t)
  | .rejected (some (.internalError m)) => some (NewInternalError m)
  | .rejected (some (.droppedBundle m)) => some (NewDroppedBundle m)
  | .rejected none => none
  | .otherResult => none

/-- The classified error produced for a given rejection reason (the image of
each `RejectedReason` under `handleBundleResult`). -/
def rejectionErrorOf : RejectedReason → BundleRejectionError
  | .simulationFailure tx msg => NewSimulationFailureError tx msg
  | .stateAuctionBidRejected a t => NewStateAuctionBidRejectedError a t
  | .winningBatchBidRejected a t => NewWinningBatchBidRejectedError a t
  | .internalError m => NewInternalError m
  | .droppedBundle m => NewDroppedBundle m

/-- Tags naming the five rejection classifications. -/
inductive RejectionTag where
  | simulationFailure
  | stateAuctionLost
  | globalAuctionLost
  | internalFault
  | droppedBundle
deriving DecidableEq, Repr

/-- The classification a given rejection reason belongs to. -/
def tagOfReason : RejectedReason → RejectionTag
  | .simulationFailure _ _ => .simulationFailure
  | .stateAuctionBidRejected _ _ => .stateAuctionLost
  | .winningBatchBidRejected _ _ => .globalAuctionLost
  | .internalError _ => .internalFault
  | .droppedBundle _ => .droppedBundle

/-- Recovers the rejection classification from a `BundleRejectionError`
message by inspecting its first nine characters; the five message formats of
`block-engine/types.go` start with pairwise distinct nine-character runs, so
a caller can branch on the reason from the message alone. -/
def classifyRejectionMessage (m : String) : Option RejectionTag :=
  if m.data.take 9 = "bundle si".data then some .simulationFailure
  else if m.data.take 9 = "bundle lo".data then some .stateAuctionLost
  else if m.data.take 9 = "bundle wo".data then some .globalAuctionLost
  else if m.data.take 9 = "internal ".data then some .internalFault
  else if m.data.take 9 = "bundle dr".data then some .droppedBundle
  else none

instance {ε α : Type} [DecidableEq ε] [DecidableEq α] : DecidableEq (Except ε α) := fun a b =>
  match a, b with
  | .error x, .error y =>
    if h : x = y then isTrue (h ▸ rfl) else isFalse fun hc => h (Except.error.inj hc)
  | .error _, .ok _ => isFalse fun hc => Except.noConfusion hc
  | .ok _, .error _ => isFalse fun hc => Except.noConfusion hc
  | .ok x, .ok y =>
    if h : x = y then isTrue (h ▸ rfl) else isFalse fun hc => h (Except.ok.inj hc)

/-- Go constant `CheckBundleRetries` from `block-engine/bundle.go`. -/
def CheckBundleRetries : Nat := 5

/-- The part of `jito_pb.SendBundleResponse` the client keeps: its identity. -/
structure SendBundleResponse where
  uuid : String
deriving DecidableEq, Repr

/-- Embedding of `block_engine.BundleResponse`. -/
structure BundleResponse where
  bundleResponse : SendBundleResponse
  signatures : List Signature
deriving DecidableEq, Repr

/-- The external inputs one iteration of the confirmation loop can observe:
whether `AuthenticationService.GRPCCtx` is done at the top of the iteration,
the outcome of `receiveBundleResult` (a stream-read error or a bundle
result), and the outcome of `waitForSignatureStatuses` (an error or timeout,
or the fetched status list). -/
structure LoopStep where
  ctxDone : Bool
  recvResult : Except String BundleResultValue
  statusesResult : Except String (List (Option SignatureStatus))
deriving DecidableEq, Repr

/-- Possible results of `SendBundleWithConfirmation`. -/
inductive BundleOutcome where
  | success (resp : BundleResponse)
  | rejection (e : BundleRejectionError)
  | ctxCancelled
  | maxRetriesExceeded
  | sendError (e : String)
  | panicNilStatus
  | panicUnsigned
deriving DecidableEq, Repr

/-- Embedding of the bounded confirmation loop of
`SearcherClient.SendBundleWithConfirmation` (`block-engine/bundle.go`,
`for i := 0; i < CheckBundleRetries; i++`).  `fuel` is the number of
remaining iterations, `i` the current iteration index; the returned `Nat`
counts how many iterations ran (the cancellation check happens before the
iteration body, a rejection or success ends the iteration it occurs in).
Per the source: a `receiveBundleResult` error is only logged; a non-nil
error from `handleBundleResult` returns immediately; a failing
`waitForSignatureStatuses` or a non-passing `ValidateSignatureStatuses`
continues with the next iteration; on full success the response carries
`pkg.BatchExtractSigFromTx(transactions)`. -/
def confirmationLoopAux (txs : List Transaction) (resp : SendBundleResponse)
    (env : Nat → LoopStep) : Nat → Nat → BundleOutcome × Nat
  | 0, i => (.maxRetriesExceeded, i)
  | fuel + 1, i =>
    let step := env i
    if step.ctxDone then
      (.ctxCancelled, i)
    else
      match
        (match step.recvResult with
         | .error _ => none
         | .ok br => handleBundleResult br) with
      | some e => (.rejection e, i + 1)
      | none =>
        match step.statusesResult with
        | .error _ => confirmationLoopAux txs resp env fuel (i + 1)
        | .ok statuses =>
          match ValidateSignatureStatuses statuses with
          | .errNotInTime => confirmationLoopAux txs resp env fuel (i + 1)
          | .panicNilStatus => (.panicNilStatus, i + 1)
          | .ok =>
            match BatchExtractSigFromTx txs with
            | none => (.panicUnsigned, i + 1)
            | some sigs => (.success ⟨resp, sigs⟩, i + 1)

/-- Embedding of `SearcherClient.SendBundleWithConfirmation`: the initial
`SendBundle` call is an oracle input (`sendResult`); on its failure the
error is returned at once, otherwise the confirmation loop runs for
`CheckBundleRetries` iterations. -/
def SendBundleWithConfirmation (txs : List Transaction)
    (sendResult : Except String SendBundleResponse)
    (env : Nat → LoopStep) : BundleOutcome × Nat :=
  match sendResult with
  | .error e => (.sendError e, 0)
  | .ok resp => confirmationLoopAux txs resp env CheckBundleRetries 0

/-- The stream read of an iteration produced no classified rejection error:
either `receiveBundleResult` itself errored (only logged) or
`handleBundleResult` returned `nil`. -/
def recvGivesNoRejection : Except String BundleResultValue → Prop
  | .error _ => True
  | .ok br => handleBundleResult br = none

instance : (e : Except String BundleResultValue) → Decidable (recvGivesNoRejection e)
  | .error _ => isTrue trivial
  | .ok br => inferInstanceAs (Decidable (handleBundleResult br = none))

/-- The status poll of an iteration did not establish confirmation: either
`waitForSignatureStatuses` failed (error or sub-timeout) or the fetched
statuses do not all sit at `processed`/`confirmed`. -/
def statusesNotAllConfirmed : Except String (List (Option SignatureStatus)) → Prop
  | .error _ => True
  | .ok sts => ValidateSignatureStatuses sts = .errNotInTime

instance : (e : Except String (List (Option SignatureStatus))) →
    Decidable (statusesNotAllConfirmed e)
  | .error _ => isTrue trivial
  | .ok sts => inferInstanceAs (Decidable (ValidateSignatureStatuses sts = .errNotInTime))

/-- An iteration of the confirmation loop that neither aborts nor finishes:
the context is live, the stream delivered no classified rejection, and the
status poll did not establish confirmation. -/
def stepContinues (s : LoopStep) : Prop :=
  s.ctxDone = false ∧
  recvGivesNoRejection s.recvResult ∧
  statusesNotAllConfirmed s.statusesResult

instance (s : LoopStep) : Decidable (stepContinues s) :=
  inferInstanceAs (Decidable (_ ∧ _ ∧ _))

/-- Embedding of the inner polling loop of
`SearcherClient.waitForSignatureStatuses`: query the statuses of the batch's
signatures, return them once `CheckSignatureStatuses` passes, give up with a
timeout error once more than 15 one-second sleeps have elapsed.  `poll k` is
the oracle outcome of the `GetSignatureStatuses` call after `k` sleeps;
`elapsed` counts the seconds slept so far and the fuel (18 from the top
call) is an upper bound forced by the timeout check, never reached. -/
def waitForSignatureStatusesLoop
    (poll : Nat → Except String (List (Option SignatureStatus))) :
    Nat → Nat → Except String (List (Option SignatureStatus))
  | _, 0 => .error "operation timed out after 15 seconds"
  | elapsed, fuel + 1 =>
    match poll elapsed with
    | .error e => .error e
    | .ok statuses =>
      if CheckSignatureStatuses statuses then .ok statuses
      else if elapsed > 15 then .error "operation timed out after 15 seconds"
      else waitForSignatureStatusesLoop poll (elapsed + 1) fuel

/-- Embedding of `SearcherClient.waitForSignatureStatuses`. -/
def waitForSignatureStatuses
    (poll : Nat → Except String (List (Option SignatureStatus))) :
    Except String (List (Option SignatureStatus)) :=
  waitForSignatureStatusesLoop poll 0 18

/-- The part of the `jito_pb.Token` access token the refresh loop reads:
its bearer value and its expiry instant, in seconds since the epoch. -/
structure Token where
  value : String
  expiresAtUtcSeconds : Int
deriving DecidableEq, Repr

/-- External inputs of one iteration of the background refresh loop of
`AuthenticationService.AuthenticateAndRefresh`: whether `GRPCCtx` is done
(and its error text if so), the outcome of `RefreshAccessToken`, and the
wall-clock instant (seconds) used to compute the pre-expiry sleep. -/
structure RefreshStep where
  ctxDone : Bool
  ctxErr : String
  refreshResult : Except String Token
  now : Int
deriving DecidableEq, Repr

/-- Observable state of the authentication service and its refresh loop.
`refreshToken` is `respToken.RefreshToken.Value`, captured once at the
handshake; `bearerToken` and `expiresAt` are the credential fields written
by `updateAuthorizationMetadata`; `pushedErrors` records the sends on
`ErrChan`; `sleeps` records each sleep in seconds; `requestedTokens`
records the refresh token sent with each `RefreshAccessToken` call;
`terminated` is set when the goroutine returns. -/
structure RefreshLoopState where
  refreshToken : String
  bearerToken : String
  expiresAt : Int
  pushedErrors : List String
  sleeps : List Int
  requestedTokens : List String
  terminated : Bool
deriving DecidableEq, Repr

/-- One iteration of the refresh goroutine of `AuthenticateAndRefresh`
(`pkg/block-engine/authenticator.go`): on a done context, push its error
and return; on a failed refresh, push the wrapped error, sleep one minute
(60 s) and continue with the same refresh token; on success, install the
new credential via `updateAuthorizationMetadata` and sleep until 15 s
before expiry (skipping a non-positive sleep).  Once terminated the state
is frozen. -/
def refreshLoopStep (env : RefreshStep) (s : RefreshLoopState) : RefreshLoopState :=
  if s.terminated then s
  else if env.ctxDone then
    { s with pushedErrors := s.pushedErrors ++ [env.ctxErr], terminated := true }
  else
    match env.refreshResult with
    | .error e =>
      { s with
        requestedTokens := s.requestedTokens ++ [s.refreshToken],
        pushedErrors := s.pushedErrors ++ ["failed to refresh access token: " ++ e],
        sleeps := s.sleeps ++ [60] }
    | .ok tok =>
      { s with
        requestedTokens := s.requestedTokens ++ [s.refreshToken],
        bearerToken := tok.value,
        expiresAt := tok.expiresAtUtcSeconds,
        sleeps := s.sleeps ++
          (if tok.expiresAtUtcSeconds - env.now - 15 > 0 then
            [tok.expiresAtUtcSeconds - env.now - 15]
          else []) }

/-- The refresh goroutine run across a sequence of iteration inputs. -/
def refreshLoopRun (steps : List RefreshStep) (s : RefreshLoopState) : RefreshLoopState :=
  steps.foldl (fun acc env => refreshLoopStep env acc) s

/-- The state of the refresh loop right after the handshake: the refresh
token is installed, nothing has been requested, pushed, or slept. -/
def initialRefreshLoopState (refreshToken bearer : String) (expiry : Int) : RefreshLoopState :=
  ⟨refreshToken, bearer, expiry, [], [], [], false⟩

/-- The gRPC connectivity states of `google.golang.org/grpc/connectivity`. -/
inductive ConnectivityState where
  | idle
  | connecting
  | ready
  | transientFailure
  | shutdown
deriving DecidableEq, Repr

/-- Observable actions of one iteration of the connection-health goroutine of
`pkg.CreateGRPCConnection`. -/
inductive ConnEvent where
  | sleepSeconds (n : Nat)
  | resetBackoff
  | closeConn
  | redial
  | pushErr (e : String)
deriving DecidableEq, Repr

/-- External inputs of one iteration of the connection-health goroutine:
whether the owning context is done, the state `conn.GetState()` reports,
and the error outcomes of `conn.Close()` (on the cancellation path) and of
the replacement `grpc.DialContext` (on the redial paths). -/
structure ConnStepInput where
  ctxDone : Bool
  state : ConnectivityState
  closeErr : Option String
  redialErr : Option String
deriving DecidableEq, Repr

/-- Error pushes produced by a possibly failing call. -/
def errPushEvents : Option String → List ConnEvent
  | some e => [.pushErr e]
  | none => []

/-- One iteration of the connection-health goroutine
(`pkg/tx_extract.go` part two, the `go func` of `CreateGRPCConnection`):
on a done context, close the channel (pushing a failing close's error) and
terminate; on `Ready`, reset the retry counter and sleep 1 s; on
`TransientFailure`, `Connecting` or `Idle`, either back off for
`retries` seconds, request the transport's internal reconnection
(`ResetConnectBackoff`) and increment the counter (while `retries < 5`),
or force-close and re-dial with identical parameters and reset the counter;
on `Shutdown`, re-dial and reset the counter.  Returns the new counter, the
iteration's events, and whether the goroutine returned. -/
def connHealthStep (inp : ConnStepInput) (retries : Nat) : Nat × List ConnEvent × Bool :=
  if inp.ctxDone then
    (retries, .closeConn :: errPushEvents inp.closeErr, true)
  else if inp.state = .ready then
    (0, [.sleepSeconds 1], false)
  else if inp.state = .transientFailure ∨ inp.state = .connecting ∨ inp.state = .idle then
    if retries < 5 then
      (retries + 1, [.sleepSeconds retries, .resetBackoff], false)
    else
      (0, [.closeConn, .redial] ++ errPushEvents inp.redialErr, false)
  else
    (0, [.redial] ++ errPushEvents inp.redialErr, false)

/-- The retry counter after running the health goroutine over a sequence of
iteration inputs, starting from `retries` (the goroutine declares
`var retries int`, so the real loop starts from 0). -/
def connHealthRunRetries : List ConnStepInput → Nat → Nat
  | [], retries => retries
  | inp :: rest, retries =>
    match connHealthStep inp retries with
    | (r2, _, true) => r2
    | (r2, _, false) => connHealthRunRetries rest r2

/-- Whether an iteration forcibly replaces the channel: it closes the
current one and immediately re-dials (the `else` branch of the
`retries < 5` test). -/
def forcedReplacement (inp : ConnStepInput) (retries : Nat) : Prop :=
  (connHealthStep inp retries).2.1.take 2 = [ConnEvent.closeConn, ConnEvent.redial]

instance (inp : ConnStepInput) (retries : Nat) : Decidable (forcedReplacement inp retries) :=
  inferInstanceAs (Decidable (_ = _))

/-- The fields of Go's `url.URL` that `CreateGRPCConnection` reads, as
returned by the external `url.Parse`. -/
structure GoURL where
  scheme : String
  hostname : String
  port : String
deriving DecidableEq, Repr

/-- The dial request `CreateGRPCConnection` hands to `grpc.DialContext`:
the derived `hostname:port` address and whether plaintext credentials are
used.  A channel is created only when this value is produced. -/
structure DialTarget where
  address : String
  insecureConnection : Bool
deriving DecidableEq, Repr

/-- Embedding of the endpoint handling of `pkg.CreateGRPCConnection`:
reject an empty address, then an unparsable one (`parseResult` is the
outcome of the external `url.Parse`), derive plaintext mode from the
`http` scheme, default the port to 80 (plaintext) or 443 (otherwise),
reject a URL with no host component, and otherwise dial
`hostname + ":" + port`. -/
def CreateGRPCConnection (grpcAddr : String)
    (parseResult : Except String GoURL) : Except String DialTarget :=
  if grpcAddr = "" then .error "gRPC address is required"
  else
    match parseResult with
    | .error e => .error ("could not parse grpcAddr: " ++ e)
    | .ok u =>
      let insecureConnection : Bool := u.scheme == "http"
      let port := if u.port = "" then (if insecureConnection then "80" else "443") else u.port
      if u.hostname = "" then
        .error "please provide URL format endpoint e.g. http(s)://<endpoint>:<port>"
      else
        .ok ⟨u.hostname ++ ":" ++ port, insecureConnection⟩

/-- Buffer capacity of the `ErrChan` made by
`block_engine_pkg.NewAuthenticationService`: `make(chan error, 1)`. -/
def NewAuthenticationServiceErrChanCapacity : Nat := 1

/-- Buffer capacity of the connection error channel made at client
construction by `block_engine.NewSearcherClient`: `chErr := make(chan error)`,
an unbuffered channel. -/
def NewSearcherClientErrChanCapacity : Nat := 0

/-!
Interleaving model for the credential replacement of
`updateAuthorizationMetadata` and a concurrent credential read.

Each credential field (`GRPCCtx`, `BearerToken`, `ExpiresAt`) is tracked by
a version number: 0 is the value before the refresh-loop replacement, 1 the
value after it, so a read returns the version of the field at the moment
the read is interleaved.  The writer is exactly the body of
`updateAuthorizationMetadata`: acquire `mu`, write the three fields, release
`mu`.  A reader is a thread that reads `BearerToken` then `ExpiresAt`,
either without touching the mutex (as every credential read in the source
does - see the busy-wait on `as.BearerToken` in `AuthenticateAndRefresh`)
or while holding `mu`.  An execution is an interleaving of the two threads
under sequentially consistent memory and mutual exclusion on `mu`.
-/

/-- Atomic actions of the credential-update and credential-read threads. -/
inductive AuthAction where
  | lockMu
  | unlockMu
  | writeCtx
  | writeBearer
  | writeExpires
  | readBearer
  | readExpires
deriving DecidableEq, Repr

/-- Shared memory: the version (0 = old, 1 = new) of each credential field
and which thread, if any, holds `mu` (`true` = writer). -/
structure AuthMem where
  ctxV : Nat
  bearerV : Nat
  expiresV : Nat
  muHolder : Option Bool
deriving DecidableEq, Repr

/-- A global configuration: the memory, the remaining programs of the writer
and the reader, and what the reader has observed so far. -/
structure AuthConfig where
  mem : AuthMem
  writerProg : List AuthAction
  readerProg : List AuthAction
  obsBearer : Option Nat
  obsExpires : Option Nat
deriving DecidableEq, Repr

/-- The body of `updateAuthorizationMetadata`, as the writer thread's
program: `mu.Lock()`, the three field writes in source order, then the
deferred `mu.Unlock()`. -/
def updateAuthorizationMetadataProg : List AuthAction :=
  [.lockMu, .writeCtx, .writeBearer, .writeExpires, .unlockMu]

/-- A paired credential read that does not touch the mutex, the way every
read of the credential fields in the source is performed. -/
def unlockedReaderProg : List AuthAction :=
  [.readBearer, .readExpires]

/-- A paired credential read performed inside a `mu` critical section. -/
def lockedReaderProg : List AuthAction :=
  [.lockMu, .readBearer, .readExpires, .unlockMu]

/-- Executes one atomic action of the thread `isWriter` (`true` = writer),
or fails if the action is not enabled (locking a held mutex, unlocking a
mutex the thread does not hold) or the thread is finished. -/
def authStepThread (isWriter : Bool) (c : AuthConfig) : Option AuthConfig :=
  match (if isWriter then c.writerProg else c.readerProg) with
  | [] => none
  | a :: rest =>
    let withProg : AuthConfig → AuthConfig := fun c2 =>
      if isWriter then { c2 with writerProg := rest } else { c2 with readerProg := rest }
    match a with
    | .lockMu =>
      match c.mem.muHolder with
      | some _ => none
      | none => some (withProg { c with mem := { c.mem with muHolder := some isWriter } })
    | .unlockMu =>
      if c.mem.muHolder = some isWriter then
        some (withProg { c with mem := { c.mem with muHolder := none } })
      else none
    | .writeCtx => some (withProg { c with mem := { c.mem with ctxV := 1 } })
    | .writeBearer => some (withProg { c with mem := { c.mem with bearerV := 1 } })
    | .writeExpires => some (withProg { c with mem := { c.mem with expiresV := 1 } })
    | .readBearer => some (withProg { c with obsBearer := some c.mem.bearerV })
    | .readExpires => some (withProg { c with obsExpires := some c.mem.expiresV })

/-- Runs a schedule (one entry per atomic action; `true` picks the writer)
from a configuration; fails if any scheduled action is not enabled. -/
def authRun : List Bool → AuthConfig → Option AuthConfig
  | [], c => some c
  | pick :: rest, c =>
    match authStepThread pick c with
    | none => none
    | some c2 => authRun rest c2

/-- The initial configuration: all fields at their old version, mutex free,
the writer about to run `updateAuthorizationMetadata`, the reader about to
perform the given paired read. -/
def authInitConfig (readerProg : List AuthAction) : AuthConfig :=
  ⟨⟨0, 0, 0, none⟩, updateAuthorizationMetadataProg, readerProg, none, none⟩

/-- The (bearer, expiry) version pair a completed execution under the given
schedule lets the reader observe; `none` when the schedule is invalid or
does not run both threads to completion. -/
def authObservation (readerProg : List AuthAction) (sched : List Bool) :
    Option (Option Nat × Option Nat) :=
  match authRun sched (authInitConfig readerProg) with
  | none => none
  | some c =>
    if c.writerProg = [] ∧ c.readerProg = [] then some (c.obsBearer, c.obsExpires)
    else none

/-- The schedule encoded by the bits of `n` (bit `i` schedules step `i`;
`true` picks the writer). -/
def scheduleOfNat (len n : Nat) : List Bool :=
  (List.range len).map fun i => n.testBit i

/-- A consistent paired observation: both fields from before the
replacement, or both from after it. -/
def consistentObservation : Option Nat × Option Nat → Prop
  | (b, e) => (b = some 0 ∧ e = some 0) ∨ (b = some 1 ∧ e = some 1)

instance (p : Option Nat × Option Nat) : Decidable (consistentObservation p) :=
  inferInstanceAs (Decidable (_ ∨ _))

/-- Consistency of the outcome of a schedule: vacuous for a schedule that is
invalid or incomplete, consistency of the observed pair otherwise. -/
def observationConsistent : Option (Option Nat × Option Nat) → Prop
  | none => True
  | some p => consistentObservation p

instance : (o : Option (Option Nat × Option Nat)) → Decidable (observationConsistent o)
  | none => isTrue trivial
  | some p => inferInstanceAs (Decidable (consistentObservation p))

/-- A concrete confirmation-loop environment: iteration 1 receives a
`SimulationFailure` rejection from the push stream, every other iteration
stalls (stream lagging, status poll timing out). -/
def exampleRejectionEnv : Nat → LoopStep := fun j =>
  if j = 1 then
    ⟨false, .ok (.rejected (some (.simulationFailure "sig" "bad"))), .error "lag"⟩
  else
    ⟨false, .error "lag", .error "lag"⟩

/-- A concrete confirmation-loop environment: no push-stream events ever
arrive, and from iteration 2 on every signature status is `confirmed`. -/
def exampleSuccessEnv : Nat → LoopStep := fun j =>
  if j < 2 then ⟨false, .error "lag", .error "lag"⟩
  else ⟨false, .error "lag", .ok [some ⟨"confirmed"⟩]⟩

/-- A concrete confirmation-loop environment: no push-stream events ever
arrive and the status poll times out on every iteration. -/
def exampleStallEnv : Nat → LoopStep := fun _ =>
  ⟨false, .error "lag", .error "lag"⟩

/-! Helper lemmas. -/

theorem extractSig_of_signed (tx : Transaction) (h : tx.signatures ≠ []) :
    ExtractSigFromTx tx = some tx.signatures.headI := by
  rcases tx with ⟨sigs⟩
  cases sigs with
  | nil => exact absurd rfl h
  | cons a l => simp [ExtractSigFromTx, List.headI]

theorem extractSig_of_unsigned (tx : Transaction) (h : tx.signatures = []) :
    ExtractSigFromTx tx = none := by
  rcases tx with ⟨sigs⟩
  cases h
  rfl

theorem batchExtract_of_signed (txs : List Transaction)
    (h : ∀ t ∈ txs, t.signatures ≠ []) :
    BatchExtractSigFromTx txs = some (txs.map fun t => t.signatures.headI) := by
  induction txs with
  | nil => rfl
  | cons tx rest ih =>
    have h1 : tx.signatures ≠ [] := h tx (by simp)
    have h2 : ∀ t ∈ rest, t.signatures ≠ [] := fun t ht => h t (by simp [ht])
    have hrest := ih h2
    simp [BatchExtractSigFromTx, extractSig_of_signed tx h1, hrest]

theorem confirmationLoopAux_zero (txs : List Transaction) (resp : SendBundleResponse)
    (env : Nat → LoopStep) (i : Nat) :
    confirmationLoopAux txs resp env 0 i = (.maxRetriesExceeded, i) := rfl

theorem handleBundleResult_rejected (r : RejectedReason) :
    handleBundleResult (.rejected (some r)) = some (rejectionErrorOf r) := by
  cases r <;> rfl

theorem confirmationLoopAux_step_continue (txs : List Transaction)
    (resp : SendBundleResponse) (env : Nat → LoopStep) (fuel i : Nat)
    (h : stepContinues (env i)) :
    confirmationLoopAux txs resp env (fuel + 1) i =
      confirmationLoopAux txs resp env fuel (i + 1) := by
  obtain ⟨hcd, hrecv, hsts⟩ := h
  simp only [confirmationLoopAux, hcd, if_false, Bool.false_eq_true]
  rcases hr : (env i).recvResult with e | br
  · rcases hs : (env i).statusesResult with e2 | sts
    · simp
    · rw [hs] at hsts
      simp only [statusesNotAllConfirmed] at hsts
      simp [hsts]
  · rw [hr] at hrecv
    simp only [recvGivesNoRejection] at hrecv
    rcases hs : (env i).statusesResult with e2 | sts
    · simp [hrecv]
    · rw [hs] at hsts
      simp only [statusesNotAllConfirmed] at hsts
      simp [hrecv, hsts]

theorem confirmationLoopAux_skip (txs : List Transaction)
    (resp : SendBundleResponse) (env : Nat → LoopStep) :
    ∀ (n k m : Nat), (∀ j, m ≤ j → j < m + n → stepContinues (env j)) →
      confirmationLoopAux txs resp env (n + k) m =
        confirmationLoopAux txs resp env k (m + n) := by
  intro n
  induction n with
  | zero => intro k m _; simp
  | succ n ih =>
    intro k m h
    have hm : stepContinues (env m) := h m (Nat.le_refl m) (by omega)
    have hstep := confirmationLoopAux_step_continue txs resp env (n + k) m hm
    have e1 : n + 1 + k = n + k + 1 := by omega
    have e2 : m + 1 + n = m + (n + 1) := by omega
    calc confirmationLoopAux txs resp env (n + 1 + k) m
        = confirmationLoopAux txs resp env (n + k + 1) m := by rw [e1]
      _ = confirmationLoopAux txs resp env (n + k) (m + 1) := hstep
      _ = confirmationLoopAux txs resp env k (m + 1 + n) :=
          ih k (m + 1) (fun j hj1 hj2 => h j (by omega) (by omega))
      _ = confirmationLoopAux txs resp env k (m + (n + 1)) := by rw [e2]

theorem confirmationLoopAux_success_inv (txs : List Transaction)
    (resp : SendBundleResponse) (env : Nat → LoopStep) :
    ∀ (fuel i n : Nat) (br : BundleResponse),
      confirmationLoopAux txs resp env fuel i = (.success br, n) →
      br.bundleResponse = resp ∧ BatchExtractSigFromTx txs = some br.signatures := by
  intro fuel
  induction fuel with
  | zero => intro i n br h; simp [confirmationLoopAux] at h
  | succ fuel ih =>
    intro i n br h
    simp only [confirmationLoopAux] at h
    split at h
    · simp at h
    · split at h
      · simp at h
      · split at h
        · exact ih _ _ _ h
        · split at h
          · exact ih _ _ _ h
          · simp at h
          · split at h
            · simp at h
            · rename_i sigs hb
              simp only [Prod.mk.injEq, BundleOutcome.success.injEq] at h
              obtain ⟨h1, -⟩ := h
              subst h1
              exact ⟨rfl, hb⟩

/-! Claim theorems. -/

/-- C1: in every execution of `SendBundleWithConfirmation` whose confirmation
loop reaches an iteration `i` at which the push stream delivers a `Rejected`
event with any of the five rejection reasons, the call returns the
corresponding classified rejection error produced at that iteration, having
run exactly `i + 1` of the `CheckBundleRetries` iterations (no further
iteration is performed, whatever the later environment holds); an `Accepted`
event produces no error. -/
theorem sendBundleWithConfirmation_rejection_terminal
    (txs : List Transaction) (resp : SendBundleResponse) (env : Nat → LoopStep)
    (i : Nat) (r : RejectedReason)
    (hi : i < CheckBundleRetries)
    (hprev : ∀ j, j < i → stepContinues (env j))
    (hcd : (env i).ctxDone = false)
    (hrecv : (env i).recvResult = .ok (.rejected (some r))) :
    SendBundleWithConfirmation txs (.ok resp) env =
      (.rejection (rejectionErrorOf r), i + 1) ∧
    i + 1 ≤ CheckBundleRetries ∧
    handleBundleResult .accepted = none := by
  refine ⟨?_, by omega, rfl⟩
  have hskip := confirmationLoopAux_skip txs resp env i (CheckBundleRetries - i) 0
    (fun j hj1 hj2 => hprev j (by omega))
  have h5 : i + (CheckBundleRetries - i) = CheckBundleRetries := by omega
  rw [h5, Nat.zero_add] at hskip
  have hk : CheckBundleRetries - i = (CheckBundleRetries - i - 1) + 1 := by omega
  show confirmationLoopAux txs resp env CheckBundleRetries 0 = _
  rw [hskip, hk]
  simp [confirmationLoopAux, hcd, hrecv, handleBundleResult_rejected r]

/-- Witness for C1: with `exampleRejectionEnv` (a `SimulationFailure`
rejection arriving on iteration 1 of 5), the call returns that classified
error after 2 iterations. -/
theorem sendBundleWithConfirmation_rejection_terminal_witness :
    SendBundleWithConfirmation [⟨["s1"]⟩] (.ok ⟨"uuid"⟩) exampleRejectionEnv =
      (.rejection (rejectionErrorOf (.simulationFailure "sig" "bad")), 2) ∧
    2 ≤ CheckBundleRetries ∧
    handleBundleResult .accepted = none :=
  sendBundleWithConfirmation_rejection_terminal [⟨["s1"]⟩] ⟨"uuid"⟩
    exampleRejectionEnv 1 (.simulationFailure "sig" "bad")
    (by decide)
    (by intro j hj; interval_cases j; exact (by decide))
    (by decide) (by decide)

/-- C2: whenever `SendBundleWithConfirmation` on a non-empty batch of signed
transactions returns success, the returned `BundleResponse.Signatures` is
exactly the first signature of each submitted transaction, in the batch's
original order, with one signature per transaction. -/
theorem sendBundleWithConfirmation_success_signatures
    (txs : List Transaction) (resp : SendBundleResponse) (env : Nat → LoopStep)
    (br : BundleResponse) (n : Nat)
    (_hne : txs ≠ [])
    (hsigned : ∀ t ∈ txs, t.signatures ≠ [])
    (hrun : SendBundleWithConfirmation txs (.ok resp) env = (.success br, n)) :
    br.bundleResponse = resp ∧
    br.signatures = txs.map (fun t => t.signatures.headI) ∧
    br.signatures.length = txs.length := by
  have h0 : confirmationLoopAux txs resp env CheckBundleRetries 0 = (.success br, n) := hrun
  obtain ⟨h1, h2⟩ := confirmationLoopAux_success_inv txs resp env CheckBundleRetries 0 n br h0
  rw [batchExtract_of_signed txs hsigned] at h2
  injection h2 with h2
  refine ⟨h1, h2.symm, ?_⟩
  rw [← h2]
  simp

/-- Witness for C2: with `exampleSuccessEnv` (statuses all `confirmed` from
iteration 2 on), the signatures of the success response are the batch's
first signatures in order. -/
theorem sendBundleWithConfirmation_success_signatures_witness :
    ([⟨["s1", "x"]⟩, ⟨["s2"]⟩] : List Transaction) ≠ [] ∧
    ({ bundleResponse := ⟨"uuid"⟩, signatures := ["s1", "s2"] } : BundleResponse).signatures =
      ["s1", "s2"] :=
  ⟨by decide,
    (sendBundleWithConfirmation_success_signatures [⟨["s1", "x"]⟩, ⟨["s2"]⟩] ⟨"uuid"⟩
      exampleSuccessEnv ⟨⟨"uuid"⟩, ["s1", "s2"]⟩ 3
      (by decide) (by decide) (by decide)).2.1.symm ▸ rfl⟩

/-- C3: in every execution of `SendBundleWithConfirmation` in which all
`CheckBundleRetries` (5) iterations pass without a rejection, without a
cancellation and without every signature status reaching
`processed`/`confirmed`, the call returns the max-retries-exceeded error
after the 5 iterations and returns no confirmed result. -/
theorem sendBundleWithConfirmation_max_retries
    (txs : List Transaction) (resp : SendBundleResponse) (env : Nat → LoopStep)
    (h : ∀ j, j < CheckBundleRetries → stepContinues (env j)) :
    SendBundleWithConfirmation txs (.ok resp) env =
      (.maxRetriesExceeded, CheckBundleRetries) ∧
    ∀ (br : BundleResponse) (n : Nat),
      SendBundleWithConfirmation txs (.ok resp) env ≠ (.success br, n) := by
  have hskip := confirmationLoopAux_skip txs resp env CheckBundleRetries 0 0
    (fun j hj1 hj2 => h j (by omega))
  have hmain : SendBundleWithConfirmation txs (.ok resp) env =
      (.maxRetriesExceeded, CheckBundleRetries) := by
    show confirmationLoopAux txs resp env CheckBundleRetries 0 = _
    have h50 : CheckBundleRetries + 0 = CheckBundleRetries := rfl
    rw [← h50, hskip]
    simp [confirmationLoopAux_zero]
  refine ⟨hmain, fun br n hc => ?_⟩
  rw [hmain] at hc
  simp at hc

/-- Witness for C3: with `exampleStallEnv` (statuses perpetually absent),
the call fails with the max-retries outcome after 5 iterations. -/
theorem sendBundleWithConfirmation_max_retries_witness :
    SendBundleWithConfirmation [⟨["s1"]⟩] (.ok ⟨"uuid"⟩) exampleStallEnv =
      (.maxRetriesExceeded, CheckBundleRetries) :=
  (sendBundleWithConfirmation_max_retries [⟨["s1"]⟩] ⟨"uuid"⟩ exampleStallEnv
    (by intro j hj; exact ⟨rfl, trivial, trivial⟩)).1

/-- C8: every `Rejected` event carrying one of the five rejection reasons is
mapped by `handleBundleResult` to a non-nil classified error (no rejection
is silently dropped), and the five classifications stay distinguishable for
the caller: `classifyRejectionMessage` recovers the rejection reason's
classification from the returned error alone, whatever the payloads. -/
theorem handleBundleResult_preserves_classification (r : RejectedReason) :
    handleBundleResult (.rejected (some r)) = some (rejectionErrorOf r) ∧
    classifyRejectionMessage (rejectionErrorOf r).message = some (tagOfReason r) := by
  refine ⟨handleBundleResult_rejected r, ?_⟩
  cases r with
  | simulationFailure tx msg =>
    have htake : (rejectionErrorOf (.simulationFailure tx msg)).message.data.take 9
        = "bundle si".data := by
      simp only [rejectionErrorOf, NewSimulationFailureError, String.data_append,
        List.append_assoc]
      rw [List.take_append_of_le_length (by decide)]
      decide
    simp only [classifyRejectionMessage, htake, tagOfReason]
    decide
  | stateAuctionBidRejected a t =>
    have htake : (rejectionErrorOf (.stateAuctionBidRejected a t)).message.data.take 9
        = "bundle lo".data := by
      simp only [rejectionErrorOf, NewStateAuctionBidRejectedError, String.data_append,
        List.append_assoc]
      rw [List.take_append_of_le_length (by decide)]
      decide
    simp only [classifyRejectionMessage, htake, tagOfReason]
    decide
  | winningBatchBidRejected a t =>
    have htake : (rejectionErrorOf (.winningBatchBidRejected a t)).message.data.take 9
        = "bundle wo".data := by
      simp only [rejectionErrorOf, NewWinningBatchBidRejectedError, String.data_append,
        List.append_assoc]
      rw [List.take_append_of_le_length (by decide)]
      decide
    simp only [classifyRejectionMessage, htake, tagOfReason]
    decide
  | internalError m =>
    have htake : (rejectionErrorOf (.internalError m)).message.data.take 9
        = "internal ".data := by
      simp only [rejectionErrorOf, NewInternalError, String.data_append,
        List.append_assoc]
      rw [List.take_append_of_le_length (by decide)]
      decide
    simp only [classifyRejectionMessage, htake, tagOfReason]
    decide
  | droppedBundle m =>
    have htake : (rejectionErrorOf (.droppedBundle m)).message.data.take 9
        = "bundle dr".data := by
      simp only [rejectionErrorOf, NewDroppedBundle, String.data_append,
        List.append_assoc]
      rw [List.take_append_of_le_length (by decide)]
      decide
    simp only [classifyRejectionMessage, htake, tagOfReason]
    decide

/-- Witness for C8: the concrete `SimulationFailure` rejection maps to its
non-nil classified error and is classified back as a simulation failure. -/
theorem handleBundleResult_preserves_classification_witness :
    handleBundleResult (.rejected (some (.simulationFailure "sig" "bad"))) =
      some (rejectionErrorOf (.simulationFailure "sig" "bad")) ∧
    classifyRejectionMessage (rejectionErrorOf (.simulationFailure "sig" "bad")).message =
      some RejectionTag.simulationFailure :=
  handleBundleResult_preserves_classification (.simulationFailure "sig" "bad")

/-- C10: signature extraction is defined exactly on signed transactions: a
transaction with a non-empty signature list yields its first signature
(`ExtractSigFromTx`), a batch of such transactions yields the list of first
signatures (`BatchExtractSigFromTx`), and a transaction with an empty
signature list makes the index access out of bounds (`none`, a Go panic),
also poisoning any batch containing it — so `SendBundleWithConfirmation`
implicitly requires every submitted transaction to be signed. -/
theorem extractSig_defined_iff_signed
    (tx : Transaction) (txs : List Transaction)
    (hne : tx.signatures ≠ []) (hall : ∀ t ∈ txs, t.signatures ≠ []) :
    ExtractSigFromTx tx = some tx.signatures.headI ∧
    BatchExtractSigFromTx txs = some (txs.map fun t => t.signatures.headI) ∧
    (∀ t : Transaction, t.signatures = [] →
      ExtractSigFromTx t = none ∧ BatchExtractSigFromTx (t :: txs) = none) := by
  refine ⟨extractSig_of_signed tx hne, batchExtract_of_signed txs hall, ?_⟩
  intro t ht
  have h1 := extractSig_of_unsigned t ht
  exact ⟨h1, by simp [BatchExtractSigFromTx, h1]⟩

/-- Witness for C10: a two-signature transaction yields its first signature,
the batch yields the first signatures in order, and an unsigned transaction
yields `none` and poisons the batch. -/
theorem extractSig_defined_iff_signed_witness :
    ExtractSigFromTx ⟨["a", "b"]⟩ = some "a" ∧
    BatchExtractSigFromTx [⟨["a", "b"]⟩, ⟨["c"]⟩] = some ["a", "c"] ∧
    ExtractSigFromTx ⟨[]⟩ = none ∧
    BatchExtractSigFromTx [⟨[]⟩, ⟨["a", "b"]⟩, ⟨["c"]⟩] = none := by
  have h := extractSig_defined_iff_signed ⟨["a", "b"]⟩ [⟨["a", "b"]⟩, ⟨["c"]⟩]
    (by decide) (by decide)
  obtain ⟨h1, h2, h3⟩ := h
  exact ⟨h1, h2, (h3 ⟨[]⟩ rfl).1, (h3 ⟨[]⟩ rfl).2⟩

theorem refreshLoopStep_refreshToken (env : RefreshStep) (s : RefreshLoopState) :
    (refreshLoopStep env s).refreshToken = s.refreshToken := by
  simp only [refreshLoopStep]
  split
  · rfl
  · split
    · rfl
    · split <;> rfl

theorem refreshLoopStep_terminated (env : RefreshStep) (s : RefreshLoopState) :
    (refreshLoopStep env s).terminated = (s.terminated || env.ctxDone) := by
  simp only [refreshLoopStep]
  rcases hs : s.terminated
  · rcases hc : env.ctxDone
    · rcases hr : env.refreshResult with e | tok <;> simp [hs, hc, hr]
    · simp [hs, hc]
  · simp [hs]

theorem refreshLoopStep_requestedTokens (env : RefreshStep) (s : RefreshLoopState) :
    ∀ tok ∈ (refreshLoopStep env s).requestedTokens,
      tok ∈ s.requestedTokens ∨ tok = s.refreshToken := by
  intro tok h
  simp only [refreshLoopStep] at h
  split at h
  · exact Or.inl h
  · split at h
    · exact Or.inl h
    · split at h <;>
        (simp only [List.mem_append, List.mem_singleton] at h; exact h)

theorem refreshLoopRun_refreshToken (steps : List RefreshStep) :
    ∀ s : RefreshLoopState, (refreshLoopRun steps s).refreshToken = s.refreshToken := by
  induction steps with
  | nil => intro s; rfl
  | cons env rest ih =>
    intro s
    show (refreshLoopRun rest (refreshLoopStep env s)).refreshToken = s.refreshToken
    rw [ih (refreshLoopStep env s), refreshLoopStep_refreshToken]

theorem refreshLoopRun_requestedTokens (steps : List RefreshStep) :
    ∀ s : RefreshLoopState, (∀ tok ∈ s.requestedTokens, tok = s.refreshToken) →
      ∀ tok ∈ (refreshLoopRun steps s).requestedTokens, tok = s.refreshToken := by
  induction steps with
  | nil => intro s h; exact h
  | cons env rest ih =>
    intro s h tok htok
    have hstep : ∀ t2 ∈ (refreshLoopStep env s).requestedTokens,
        t2 = (refreshLoopStep env s).refreshToken := by
      intro t2 ht2
      rw [refreshLoopStep_refreshToken]
      rcases refreshLoopStep_requestedTokens env s t2 ht2 with h1 | h1
      · exact h t2 h1
      · exact h1
    have hres := ih (refreshLoopStep env s) hstep tok htok
    rw [hres, refreshLoopStep_refreshToken]

theorem refreshLoopRun_terminated (steps : List RefreshStep) :
    ∀ s : RefreshLoopState,
      (refreshLoopRun steps s).terminated =
        (s.terminated || steps.any fun st => st.ctxDone) := by
  induction steps with
  | nil => intro s; simp [refreshLoopRun]
  | cons env rest ih =>
    intro s
    show (refreshLoopRun rest (refreshLoopStep env s)).terminated = _
    rw [ih, refreshLoopStep_terminated]
    simp [Bool.or_assoc]

/-- C5: a failed `RefreshAccessToken` call makes the refresh loop push the
wrapped error on `ErrChan`, sleep one minute (60 s) and go on, not
terminated, with the refresh token unchanged; across any whole run the
refresh token stays the one captured at the handshake and every
`RefreshAccessToken` request carries exactly that token; and the loop is
terminated at the end of a run exactly when some iteration saw the owning
context cancelled - never by refresh failures alone. -/
theorem refreshLoop_failure_retry_and_token_stability
    (steps : List RefreshStep) (init : RefreshLoopState)
    (env : RefreshStep) (s : RefreshLoopState) (e : String)
    (hterm : init.terminated = false)
    (hinit : ∀ tok ∈ init.requestedTokens, tok = init.refreshToken)
    (hs : s.terminated = false) (hcd : env.ctxDone = false)
    (herr : env.refreshResult = .error e) :
    (refreshLoopStep env s).pushedErrors =
      s.pushedErrors ++ ["failed to refresh access token: " ++ e] ∧
    (refreshLoopStep env s).sleeps = s.sleeps ++ [60] ∧
    (refreshLoopStep env s).requestedTokens = s.requestedTokens ++ [s.refreshToken] ∧
    (refreshLoopStep env s).terminated = false ∧
    (refreshLoopStep env s).refreshToken = s.refreshToken ∧
    (refreshLoopRun steps init).refreshToken = init.refreshToken ∧
    (∀ tok ∈ (refreshLoopRun steps init).requestedTokens, tok = init.refreshToken) ∧
    (refreshLoopRun steps init).terminated = (steps.any fun st => st.ctxDone) := by
  refine ⟨?_, ?_, ?_, ?_, ?_, refreshLoopRun_refreshToken steps init,
    refreshLoopRun_requestedTokens steps init hinit, ?_⟩
  · simp [refreshLoopStep, hs, hcd, herr]
  · simp [refreshLoopStep, hs, hcd, herr]
  · simp [refreshLoopStep, hs, hcd, herr]
  · simp [refreshLoopStep, hs, hcd, herr]
  · exact refreshLoopStep_refreshToken env s
  · rw [refreshLoopRun_terminated steps init, hterm]
    simp

/-- Witness for C5: a concrete failing iteration from the post-handshake
state appends the wrapped error and a 60 s sleep and keeps the token, and a
run of one failure followed by a cancellation terminates. -/
theorem refreshLoop_failure_retry_and_token_stability_witness :
    (refreshLoopStep ⟨false, "", .error "boom", 0⟩
        (initialRefreshLoopState "rt" "b0" 100)).pushedErrors =
      (initialRefreshLoopState "rt" "b0" 100).pushedErrors ++
        ["failed to refresh access token: " ++ "boom"] ∧
    (refreshLoopStep ⟨false, "", .error "boom", 0⟩
        (initialRefreshLoopState "rt" "b0" 100)).sleeps =
      (initialRefreshLoopState "rt" "b0" 100).sleeps ++ [60] ∧
    (refreshLoopStep ⟨false, "", .error "boom", 0⟩
        (initialRefreshLoopState "rt" "b0" 100)).requestedTokens =
      (initialRefreshLoopState "rt" "b0" 100).requestedTokens ++
        [(initialRefreshLoopState "rt" "b0" 100).refreshToken] ∧
    (refreshLoopStep ⟨false, "", .error "boom", 0⟩
        (initialRefreshLoopState "rt" "b0" 100)).terminated = false ∧
    (refreshLoopStep ⟨false, "", .error "boom", 0⟩
        (initialRefreshLoopState "rt" "b0" 100)).refreshToken =
      (initialRefreshLoopState "rt" "b0" 100).refreshToken ∧
    (refreshLoopRun [⟨false, "", .error "boom", 0⟩, ⟨true, "context canceled", .error "x", 0⟩]
        (initialRefreshLoopState "rt" "b0" 100)).refreshToken =
      (initialRefreshLoopState "rt" "b0" 100).refreshToken ∧
    (∀ tok ∈ (refreshLoopRun
        [⟨false, "", .error "boom", 0⟩, ⟨true, "context canceled", .error "x", 0⟩]
        (initialRefreshLoopState "rt" "b0" 100)).requestedTokens,
      tok = (initialRefreshLoopState "rt" "b0" 100).refreshToken) ∧
    (refreshLoopRun [⟨false, "", .error "boom", 0⟩, ⟨true, "context canceled", .error "x", 0⟩]
        (initialRefreshLoopState "rt" "b0" 100)).terminated =
      ([(⟨false, "", .error "boom", 0⟩ : RefreshStep),
        ⟨true, "context canceled", .error "x", 0⟩].any fun st => st.ctxDone) :=
  refreshLoop_failure_retry_and_token_stability
    [⟨false, "", .error "boom", 0⟩, ⟨true, "context canceled", .error "x", 0⟩]
    (initialRefreshLoopState "rt" "b0" 100)
    ⟨false, "", .error "boom", 0⟩ (initialRefreshLoopState "rt" "b0" 100) "boom"
    rfl (by simp [initialRefreshLoopState]) rfl rfl rfl

theorem connHealthStep_retries_le (inp : ConnStepInput) (retries : Nat)
    (h : retries ≤ 5) : (connHealthStep inp retries).1 ≤ 5 := by
  simp only [connHealthStep]
  split
  · exact h
  · split
    · exact Nat.zero_le 5
    · split
      · split
        · omega
        · exact Nat.zero_le 5
      · exact Nat.zero_le 5

theorem connHealthRunRetries_le (inps : List ConnStepInput) :
    ∀ retries : Nat, retries ≤ 5 → connHealthRunRetries inps retries ≤ 5 := by
  induction inps with
  | nil => intro r h; exact h
  | cons inp rest ih =>
    intro r h
    have hstep := connHealthStep_retries_le inp r h
    simp only [connHealthRunRetries]
    rcases hs : connHealthStep inp r with ⟨r2, evs, term⟩
    rw [hs] at hstep
    cases term
    · exact ih r2 hstep
    · exact hstep

/-- C6: in any reachable iteration of the connection-health loop that sees
`TransientFailure`, `Connecting` or `Idle` with a live context: while the
consecutive-retry counter is below 5 the loop sleeps `retries` time units,
requests the transport's internal reconnection and increments the counter;
the forced close-and-redial of the channel happens exactly when the counter
has reached the ceiling 5, and it resets the counter to 0; seeing `Ready`
also resets the counter to 0; and the counter stays bounded by 5 across any
run started from the initial counter. -/
theorem connHealth_backoff_and_replacement
    (inp : ConnStepInput) (retries : Nat) (inps : List ConnStepInput)
    (hcd : inp.ctxDone = false) (hb : retries ≤ 5) :
    ((inp.state = .transientFailure ∨ inp.state = .connecting ∨ inp.state = .idle) →
      (retries < 5 →
        connHealthStep inp retries =
          (retries + 1, [.sleepSeconds retries, .resetBackoff], false)) ∧
      (retries = 5 →
        connHealthStep inp retries =
          (0, [.closeConn, .redial] ++ errPushEvents inp.redialErr, false)) ∧
      (forcedReplacement inp retries ↔ retries = 5)) ∧
    (inp.state = .ready → connHealthStep inp retries = (0, [.sleepSeconds 1], false)) ∧
    connHealthRunRetries inps 0 ≤ 5 := by
  refine ⟨?_, ?_, connHealthRunRetries_le inps 0 (by omega)⟩
  · intro hstate
    have hnotready : ¬ inp.state = .ready := by
      rcases hstate with h | h | h <;> simp [h]
    refine ⟨?_, ?_, ?_⟩
    · intro hlt
      simp [connHealthStep, hcd, hnotready, hstate, hlt]
    · intro heq
      subst heq
      simp [connHealthStep, hcd, hnotready, hstate]
    · constructor
      · intro hf
        by_contra hne
        have hlt : retries < 5 := by omega
        simp [forcedReplacement, connHealthStep, hcd, hnotready, hstate, hlt] at hf
      · intro heq
        subst heq
        simp [forcedReplacement, connHealthStep, hcd, hnotready, hstate, errPushEvents]
  · intro hready
    simp [connHealthStep, hcd, hready]

/-- Witness for C6: at counter 4 (below the ceiling) an unhealthy iteration
backs off and increments, no forced replacement happens, `Ready` resets the
counter, and a short run keeps the counter within the ceiling. -/
theorem connHealth_backoff_and_replacement_witness :
    connHealthStep ⟨false, .transientFailure, none, none⟩ 4 =
      (5, [.sleepSeconds 4, .resetBackoff], false) ∧
    ¬ forcedReplacement ⟨false, .transientFailure, none, none⟩ 4 ∧
    connHealthStep ⟨false, .ready, none, none⟩ 4 = (0, [.sleepSeconds 1], false) ∧
    connHealthRunRetries
      [⟨false, .transientFailure, none, none⟩, ⟨false, .ready, none, none⟩] 0 ≤ 5 := by
  have h := connHealth_backoff_and_replacement ⟨false, .transientFailure, none, none⟩ 4
    [⟨false, .transientFailure, none, none⟩, ⟨false, .ready, none, none⟩]
    rfl (by omega)
  have h2 := connHealth_backoff_and_replacement ⟨false, .ready, none, none⟩ 4 [] rfl (by omega)
  refine ⟨(h.1 (Or.inl rfl)).1 (by omega), ?_, h2.2.1 rfl, h.2.2⟩
  intro hf
  have := ((h.1 (Or.inl rfl)).2.2).mp hf
  omega

/-- C7: every endpoint string that is empty, unparsable, or parses with no
host component makes `CreateGRPCConnection` fail with the corresponding
invalid-endpoint error and produce no dial target (no channel); every
parsable endpoint with a host but no explicit port is dialed at port 80
when the scheme is `http` (plaintext) and port 443 otherwise. -/
theorem createGRPCConnection_endpoint_validation :
    (∀ pr : Except String GoURL,
      CreateGRPCConnection "" pr = .error "gRPC address is required") ∧
    (∀ (a e : String), a ≠ "" →
      CreateGRPCConnection a (.error e) = .error ("could not parse grpcAddr: " ++ e)) ∧
    (∀ (a : String) (u : GoURL), a ≠ "" → u.hostname = "" →
      CreateGRPCConnection a (.ok u) =
        .error "please provide URL format endpoint e.g. http(s)://<endpoint>:<port>") ∧
    (∀ (a : String) (u : GoURL), a ≠ "" → u.hostname ≠ "" → u.port = "" →
      u.scheme = "http" →
      CreateGRPCConnection a (.ok u) = .ok ⟨u.hostname ++ ":" ++ "80", true⟩) ∧
    (∀ (a : String) (u : GoURL), a ≠ "" → u.hostname ≠ "" → u.port = "" →
      u.scheme ≠ "http" →
      CreateGRPCConnection a (.ok u) = .ok ⟨u.hostname ++ ":" ++ "443", false⟩) := by
  refine ⟨?_, ?_, ?_, ?_, ?_⟩
  · intro pr; simp [CreateGRPCConnection]
  · intro a e ha; simp [CreateGRPCConnection, ha]
  · intro a u ha hh; simp [CreateGRPCConnection, ha, hh]
  · intro a u ha hh hp hs
    simp [CreateGRPCConnection, ha, hh, hp, hs]
  · intro a u ha hh hp hs
    simp [CreateGRPCConnection, ha, hh, hp, hs]

/-- Witness for C7: the empty address, an unparsable address, a hostless
URL, and the two port-defaulting cases, all at concrete inputs. -/
theorem createGRPCConnection_endpoint_validation_witness :
    CreateGRPCConnection "" (.ok ⟨"http", "h", ""⟩) = .error "gRPC address is required" ∧
    CreateGRPCConnection "::bad" (.error "missing scheme") =
      .error ("could not parse grpcAddr: " ++ "missing scheme") ∧
    CreateGRPCConnection "http://" (.ok ⟨"http", "", ""⟩) =
      .error "please provide URL format endpoint e.g. http(s)://<endpoint>:<port>" ∧
    CreateGRPCConnection "http://node.example" (.ok ⟨"http", "node.example", ""⟩) =
      .ok ⟨"node.example" ++ ":" ++ "80", true⟩ ∧
    CreateGRPCConnection "https://node.example" (.ok ⟨"https", "node.example", ""⟩) =
      .ok ⟨"node.example" ++ ":" ++ "443", false⟩ := by
  have h := createGRPCConnection_endpoint_validation
  exact ⟨h.1 _,
    h.2.1 "::bad" "missing scheme" (by decide),
    h.2.2.1 "http://" ⟨"http", "", ""⟩ (by decide) rfl,
    h.2.2.2.1 "http://node.example" ⟨"http", "node.example", ""⟩ (by decide) (by decide) rfl rfl,
    h.2.2.2.2 "https://node.example" ⟨"https", "node.example", ""⟩ (by decide) (by decide) rfl
      (by decide)⟩

/-- Counterexample to C4 as stated: a credential read performed the way the
source reads credential fields - without acquiring `mu` - can interleave
with the locked replacement of `updateAuthorizationMetadata` so that it
observes the new bearer together with the old expiry: the concrete schedule
(writer locks, writes `GRPCCtx`, writes `BearerToken`; reader reads
`BearerToken`, reads `ExpiresAt`; writer writes `ExpiresAt`, unlocks)
completes and yields the mixed pair (new bearer, old expiry). -/
theorem unlockedCredentialRead_torn_pair :
    authObservation unlockedReaderProg [true, true, true, false, false, true, true] =
      some (some 1, some 0) ∧
    ¬ consistentObservation (some 1, some 0) := by
  decide

set_option maxRecDepth 8192 in
/-- C4 amended: the replacement writes all credential fields while holding
`mu`, so it is atomic with respect to the mutex: a paired credential read
performed inside a `mu` critical section observes either both old or both
new values in every completed interleaving with the refresh-loop
replacement; reads that skip the mutex (as the source's reads do) get no
such guarantee. -/
theorem lockedCredentialRead_consistent_pairs :
    ∀ n : Fin 512,
      observationConsistent (authObservation lockedReaderProg (scheduleOfNat 9 n.val)) := by
  decide

/-- Counterexample to C9 as stated: the connection error channel created at
client construction by `NewSearcherClient` is unbuffered, so its capacity
is 0, not at least 1. -/
theorem searcherErrChan_unbuffered :
    NewSearcherClientErrChanCapacity = 0 ∧
    ¬ 1 ≤ NewSearcherClientErrChanCapacity := by
  decide

/-- C9 amended: the authentication service's `ErrChan` is created with
buffer capacity 1, which lies within the spec's stated 1-10 depth, but the
connection error channel created at client construction is unbuffered
(capacity 0), so a single connection error push blocks its reporting task
until some consumer receives. -/
theorem errChanCapacities :
    NewAuthenticationServiceErrChanCapacity = 1 ∧
    1 ≤ NewAuthenticationServiceErrChanCapacity ∧
    NewAuthenticationServiceErrChanCapacity ≤ 10 ∧
    NewSearcherClientErrChanCapacity = 0 := by
  decide
